import Mathlib

/-!
Shallow embedding of `src/lib.rs` of the ffi-animal-farm crate.

The crate exposes four `extern "C"` functions over a `Farm` registry:
`create_farm`, `add_animal`, `get_animal`, `native_speak`.  Opaque C
pointers (`*const c_void`, `*const i8`) are modelled as natural-number
addresses; the process heap of live `Farm` allocations is an explicit
association list together with a bump allocator for fresh addresses.

Every exported operation except `create_farm` begins with
`Box::from_raw(farm_ptr as *mut Farm)`, which takes ownership of the
allocation; the box is dropped when the function returns, deallocating
the farm.  The embedding makes this visible: each call removes the farm
from the heap and records `farm_ptr` in the `freed` log of its result.
A call whose `farm_ptr` is not a live allocation is undefined behaviour
(a dangling `Box::from_raw`), modelled by the `useAfterFree` outcome.

Rust `panic!` in an `extern "C"` function aborts the process; the two
panic sites in the source (UTF-8 decode failure, name not found in the
map) are modelled by dedicated outcome constructors.
-/

/-- Opaque machine addresses (`*const c_void` handles and farm pointers). -/
abbrev Ptr := Nat

/-- `#[repr(C)] pub struct FunctionsMap { speak: extern "C" fn(*const c_void, *const i8) }`:
a struct with exactly one function-pointer field.  The function pointer itself is
opaque to the crate, so it is modelled as an address. -/
structure FunctionsMap where
  speak : Nat
deriving DecidableEq

/-- `struct Farm { animal_ptrs: HashMap<String, *const c_void>, functions_map: Box<FunctionsMap> }`.
The `HashMap` is modelled as an association list with the usual map semantics
(insert overwrites, get is a read). -/
structure Farm where
  animal_ptrs : List (String × Ptr)
  functions_map : FunctionsMap
deriving DecidableEq

/-- `HashMap::insert`: overwrite the entry for `k` if present, else append it. -/
def mapInsert (k : String) (v : Ptr) : List (String × Ptr) → List (String × Ptr)
  | [] => [(k, v)]
  | (k2, v2) :: rest => if k2 = k then (k, v) :: rest else (k2, v2) :: mapInsert k v rest

/-- `HashMap::get`: first entry whose key is `k`, a non-mutating read. -/
def mapGet (k : String) : List (String × Ptr) → Option Ptr
  | [] => none
  | (k2, v2) :: rest => if k2 = k then some v2 else mapGet k rest

/-- `Farm::add_animal`: `self.animal_ptrs.insert(name.to_string(), animal_ptr)`. -/
def Farm.add_animal (self : Farm) (name : String) (animal_ptr : Ptr) : Farm :=
  { self with animal_ptrs := mapInsert name animal_ptr self.animal_ptrs }

/-- The inline read `farm.animal_ptrs.get(&animal_name)` used by `get_animal`
and `native_speak`; it borrows the farm immutably (`&self`). -/
def Farm.lookup (self : Farm) (name : String) : Option Ptr :=
  mapGet name self.animal_ptrs

/-- A `*const i8` C string crossing the boundary, reduced to the one property
the crate inspects: whether `CStr::to_str` decodes it as UTF-8, and to what. -/
inductive CStrPtr where
  | utf8 (s : String)
  | invalid
deriving DecidableEq

/-- `CStr::from_ptr(p).to_str()`: `some s` on valid UTF-8, `none` on decode failure. -/
def cstrDecode : CStrPtr → Option String
  | .utf8 s => some s
  | .invalid => none

/-- The process heap of live `Farm` allocations, with a bump allocator. -/
structure Heap where
  next : Ptr
  store : List (Ptr × Farm)
deriving DecidableEq

/-- Read the live allocation at address `p`, if any. -/
def heapGet (p : Ptr) : List (Ptr × Farm) → Option Farm
  | [] => none
  | (q, f) :: rest => if q = p then some f else heapGet p rest

/-- Remove the allocation at address `p` (ownership taken by `Box::from_raw`). -/
def heapRemove (p : Ptr) : List (Ptr × Farm) → List (Ptr × Farm)
  | [] => []
  | (q, f) :: rest => if q = p then rest else (q, f) :: heapRemove p rest

/-- One invocation of a capability-table entry: which function pointer was
called, with which object handle and which raw message pointer. -/
structure SpeakCall where
  fn : Nat
  animal : Ptr
  message : CStrPtr
deriving DecidableEq

/-- Observable outcome of one exported call. -/
inductive FfiOut (α : Type) where
  /-- The call returned normally with a value. -/
  | ok (a : α)
  /-- The source line: match on CStr decode, Err branch aborts with a panic
  about failing to get the CStr. -/
  | panicInvalidUtf8
  /-- The source line: panic that the animal with this name could not be
  found in the farm (the message carries the looked-up name). -/
  | panicNotFound (name : String)
  /-- `Box::from_raw` on an address with no live allocation: undefined
  behaviour (use after free / double free). -/
  | useAfterFree
deriving DecidableEq

/-- Result of one exported call: its outcome, the heap afterwards, the
capability entries it invoked, and the allocations it deallocated. -/
structure FfiResult (α : Type) where
  out : FfiOut α
  heap : Heap
  calls : List SpeakCall
  freed : List Ptr
deriving DecidableEq

/-- `extern "C" fn create_farm(functions_map: *mut FunctionsMap) -> *const c_void`:
takes ownership of the functions map, allocates a farm with an empty
`animal_ptrs` map, and returns its raw address (`Box::into_raw`). -/
def create_farm (h : Heap) (functions_map : FunctionsMap) : Ptr × Heap :=
  (h.next, ⟨h.next + 1, (h.next, ⟨[], functions_map⟩) :: h.store⟩)

/-- `extern "C" fn add_animal(farm_ptr, animal_name, animal_ptr)`:
`Box::from_raw` re-owns the farm, the name is decoded (panic on failure),
`Farm::add_animal` mutates the local box, and the box is dropped on return,
so the updated farm is deallocated rather than stored back. -/
def add_animal (h : Heap) (farm_ptr : Ptr) (animal_name : CStrPtr) (animal_ptr : Ptr) :
    FfiResult Unit :=
  match heapGet farm_ptr h.store with
  | none => ⟨.useAfterFree, h, [], []⟩
  | some farm =>
    match cstrDecode animal_name with
    | none => ⟨.panicInvalidUtf8, ⟨h.next, heapRemove farm_ptr h.store⟩, [], []⟩
    | some name =>
      let _updated := farm.add_animal name animal_ptr
      ⟨.ok (), ⟨h.next, heapRemove farm_ptr h.store⟩, [], [farm_ptr]⟩

/-- `extern "C" fn get_animal(farm_ptr, animal_name) -> *const c_void`:
`Box::from_raw` re-owns the farm, the name is decoded (panic on failure),
the map is read; a hit returns the stored handle, a miss panics.  The box
is dropped on return, deallocating the farm. -/
def get_animal (h : Heap) (farm_ptr : Ptr) (animal_name : CStrPtr) : FfiResult Ptr :=
  match heapGet farm_ptr h.store with
  | none => ⟨.useAfterFree, h, [], []⟩
  | some farm =>
    match cstrDecode animal_name with
    | none => ⟨.panicInvalidUtf8, ⟨h.next, heapRemove farm_ptr h.store⟩, [], []⟩
    | some name =>
      match farm.lookup name with
      | some animal_ptr =>
        ⟨.ok animal_ptr, ⟨h.next, heapRemove farm_ptr h.store⟩, [], [farm_ptr]⟩
      | none => ⟨.panicNotFound name, ⟨h.next, heapRemove farm_ptr h.store⟩, [], []⟩

/-- `extern "C" fn native_speak(farm_ptr, animal_name, message)`:
`Box::from_raw` re-owns the farm, the name is decoded (panic on failure),
the map is read; a hit calls `(farm.functions_map.speak)(*animal_ptr, message)`
once, a miss panics.  The box is dropped on return, deallocating the farm. -/
def native_speak (h : Heap) (farm_ptr : Ptr) (animal_name message : CStrPtr) :
    FfiResult Unit :=
  match heapGet farm_ptr h.store with
  | none => ⟨.useAfterFree, h, [], []⟩
  | some farm =>
    match cstrDecode animal_name with
    | none => ⟨.panicInvalidUtf8, ⟨h.next, heapRemove farm_ptr h.store⟩, [], []⟩
    | some name =>
      match farm.lookup name with
      | some animal_ptr =>
        ⟨.ok (), ⟨h.next, heapRemove farm_ptr h.store⟩,
          [⟨farm.functions_map.speak, animal_ptr, message⟩], [farm_ptr]⟩
      | none => ⟨.panicNotFound name, ⟨h.next, heapRemove farm_ptr h.store⟩, [], []⟩

/-! Map lemmas shared by the registry-level claims. -/

/-- Reading back the key just inserted yields the inserted value. -/
theorem mapGet_mapInsert_self (k : String) (v : Ptr) (m : List (String × Ptr)) :
    mapGet k (mapInsert k v m) = some v := by
  induction m with
  | nil => simp [mapInsert, mapGet]
  | cons hd tl ih =>
    obtain ⟨k2, v2⟩ := hd
    by_cases hk : k2 = k
    · simp [mapInsert, mapGet, hk]
    · simp [mapInsert, mapGet, hk, ih]

/-- Inserting under one key leaves the value read under any other key unchanged. -/
theorem mapGet_mapInsert_ne (j k : String) (v : Ptr) (m : List (String × Ptr))
    (hjk : j ≠ k) : mapGet j (mapInsert k v m) = mapGet j m := by
  induction m with
  | nil => simp [mapInsert, mapGet, Ne.symm hjk]
  | cons hd tl ih =>
    obtain ⟨k2, v2⟩ := hd
    by_cases hk : k2 = k
    · subst hk
      simp [mapInsert, mapGet, Ne.symm hjk]
    · simp [mapInsert, mapGet, hk, ih]

/-! Claim theorems. -/

/-- Claim C1 (code bug, evaluation): on the concrete trace
`create_farm` then `add_animal(p, "cow", 7)`, the `add_animal` call itself
returns normally but deallocates the farm (`freed = [p]`, heap empty
afterwards), so the registry is not live for the next call: the following
`get_animal(p, "cow")` is a use-after-free.  This contradicts the claim
that every non-teardown operation only borrows the registry handle. -/
theorem c1_registry_freed_on_first_use :
    create_farm ⟨0, []⟩ ⟨100⟩ = (0, ⟨1, [(0, ⟨[], ⟨100⟩⟩)]⟩) ∧
    (add_animal ⟨1, [(0, ⟨[], ⟨100⟩⟩)]⟩ 0 (CStrPtr.utf8 "cow") 7).out = FfiOut.ok () ∧
    (add_animal ⟨1, [(0, ⟨[], ⟨100⟩⟩)]⟩ 0 (CStrPtr.utf8 "cow") 7).freed = [0] ∧
    (add_animal ⟨1, [(0, ⟨[], ⟨100⟩⟩)]⟩ 0 (CStrPtr.utf8 "cow") 7).heap = ⟨1, []⟩ ∧
    (get_animal ⟨1, []⟩ 0 (CStrPtr.utf8 "cow")).out = FfiOut.useAfterFree := by
  decide

/-- Claim C2 (confirmed at the registry level): after
`Farm::add_animal(name, handle)`, the read `animal_ptrs.get(&name)` returns
that handle; the read takes `&self` (pure in the embedding), so repeating it
keeps returning the same handle, and it keeps doing so after registrations
of other names, until `name` itself is overwritten. -/
theorem c2_register_then_lookup_repeatable (f : Farm) (n : String) (H : Ptr) :
    (f.add_animal n H).lookup n = some H ∧
    (∀ m H2, m ≠ n → ((f.add_animal n H).add_animal m H2).lookup n = some H) := by
  constructor
  · simp [Farm.lookup, Farm.add_animal, mapGet_mapInsert_self]
  · intro m H2 hmn
    simp [Farm.lookup, Farm.add_animal]
    rw [mapGet_mapInsert_ne n m H2 _ (Ne.symm hmn)]
    exact mapGet_mapInsert_self n H f.animal_ptrs

/-- Witness for C2 at `f = ⟨[], ⟨0⟩⟩`, `n = "cow"`, `H = 7`, `m = "duck"`. -/
theorem c2_register_then_lookup_repeatable_witness :
    ((Farm.mk [] ⟨0⟩).add_animal "cow" 7).lookup "cow" = some 7 ∧
    (((Farm.mk [] ⟨0⟩).add_animal "cow" 7).add_animal "duck" 8).lookup "cow" = some 7 :=
  ⟨(c2_register_then_lookup_repeatable ⟨[], ⟨0⟩⟩ "cow" 7).1,
   (c2_register_then_lookup_repeatable ⟨[], ⟨0⟩⟩ "cow" 7).2 "duck" 8 (by decide)⟩

/-- Claim C3 (code bug, evaluation): with a live farm holding `"cow" ↦ 7`,
the first `native_speak` does call the single table entry exactly once with
the registered handle and the raw message, but it also deallocates the farm;
the second identical invocation is a use-after-free and calls no entry,
contradicting the claim that it succeeds and calls the entry again. -/
theorem c3_second_invocation_is_use_after_free :
    (native_speak ⟨4, [(3, ⟨[("cow", 7)], ⟨100⟩⟩)]⟩ 3 (CStrPtr.utf8 "cow")
      (CStrPtr.utf8 "moo")).out = FfiOut.ok () ∧
    (native_speak ⟨4, [(3, ⟨[("cow", 7)], ⟨100⟩⟩)]⟩ 3 (CStrPtr.utf8 "cow")
      (CStrPtr.utf8 "moo")).calls = [⟨100, 7, CStrPtr.utf8 "moo"⟩] ∧
    (native_speak ⟨4, [(3, ⟨[("cow", 7)], ⟨100⟩⟩)]⟩ 3 (CStrPtr.utf8 "cow")
      (CStrPtr.utf8 "moo")).heap = ⟨4, []⟩ ∧
    (native_speak ⟨4, []⟩ 3 (CStrPtr.utf8 "cow") (CStrPtr.utf8 "moo")).out =
      FfiOut.useAfterFree ∧
    (native_speak ⟨4, []⟩ 3 (CStrPtr.utf8 "cow") (CStrPtr.utf8 "moo")).calls = [] := by
  decide

/-- Claim C4 (code bug, evaluation): `native_speak` on a live farm whose map
does not contain `"cow"` performs no entry call, but it panics (process
abort across the C boundary) with the not-found message carrying the name,
instead of returning an `ObjectNotFound` error to the caller. -/
theorem c4_missing_object_panics_not_error :
    (native_speak ⟨1, [(0, ⟨[], ⟨100⟩⟩)]⟩ 0 (CStrPtr.utf8 "cow")
      (CStrPtr.utf8 "moo")).out = FfiOut.panicNotFound "cow" ∧
    (native_speak ⟨1, [(0, ⟨[], ⟨100⟩⟩)]⟩ 0 (CStrPtr.utf8 "cow")
      (CStrPtr.utf8 "moo")).calls = [] := by
  decide

/-- Claim C5 (code bug, evaluation): `get_animal` on a live farm whose map
does not contain `"cow"` panics with the not-found message instead of
signalling `NotFound` without aborting. -/
theorem c5_lookup_missing_name_panics :
    (get_animal ⟨1, [(0, ⟨[], ⟨100⟩⟩)]⟩ 0 (CStrPtr.utf8 "cow")).out =
      FfiOut.panicNotFound "cow" := by
  decide

/-- Claim C6 (confirmed at the registry level): `Farm::add_animal` of the
same name twice overwrites, so the lookup returns the second handle; and no
execution path of the exported `add_animal` ever deallocates anything but
the farm box itself (`freed` is `[farm_ptr]` or empty), so a registered
handle is never implicitly destroyed by the registry. -/
theorem c6_register_overwrites_without_freeing_handles (f : Farm) (n : String)
    (H1 H2 : Ptr) (h : Heap) (p : Ptr) (cn : CStrPtr) (ap : Ptr) :
    ((f.add_animal n H1).add_animal n H2).lookup n = some H2 ∧
    ((add_animal h p cn ap).freed = [p] ∨ (add_animal h p cn ap).freed = []) := by
  constructor
  · simp [Farm.lookup, Farm.add_animal, mapGet_mapInsert_self]
  · cases hg : heapGet p h.store with
    | none => right; simp [add_animal, hg]
    | some farm =>
      cases hd : cstrDecode cn with
      | none => right; simp [add_animal, hg, hd]
      | some name => left; simp [add_animal, hg, hd]

/-- Claim C7 (code bug, evaluation): each of the three exported operations
that decode a string, given bytes that fail UTF-8 decoding, panics (process
abort) instead of returning a distinct `InvalidEncoding` error. -/
theorem c7_invalid_utf8_panics_not_error :
    (add_animal ⟨1, [(0, ⟨[], ⟨100⟩⟩)]⟩ 0 CStrPtr.invalid 7).out =
      FfiOut.panicInvalidUtf8 ∧
    (get_animal ⟨1, [(0, ⟨[], ⟨100⟩⟩)]⟩ 0 CStrPtr.invalid).out =
      FfiOut.panicInvalidUtf8 ∧
    (native_speak ⟨1, [(0, ⟨[], ⟨100⟩⟩)]⟩ 0 CStrPtr.invalid
      (CStrPtr.utf8 "moo")).out = FfiOut.panicInvalidUtf8 := by
  decide

/-- Claim C8 (confirmed): every `FunctionsMap` is exactly its single `speak`
field, and `native_speak` takes no capability-name argument: on any live
farm with a registered name it always dispatches to that one bound entry,
so no capability-name resolution happens and no unknown-capability failure
exists in the code (the outcome type has no such case). -/
theorem c8_single_entry_table_always_dispatches_speak
    (fm : FunctionsMap) (h : Heap) (p : Ptr) (farm : Farm)
    (aname msg : CStrPtr) (s : String) (ap : Ptr)
    (hlive : heapGet p h.store = some farm)
    (hdec : cstrDecode aname = some s)
    (hreg : farm.lookup s = some ap) :
    fm = ⟨fm.speak⟩ ∧
    (native_speak h p aname msg).out = FfiOut.ok () ∧
    (native_speak h p aname msg).calls = [⟨farm.functions_map.speak, ap, msg⟩] := by
  refine ⟨rfl, ?_, ?_⟩ <;> simp [native_speak, hlive, hdec, hreg]

/-- Witness for C8 on a live farm `⟨[("cow", 7)], ⟨100⟩⟩` at address 3. -/
theorem c8_single_entry_table_always_dispatches_speak_witness :
    (⟨100⟩ : FunctionsMap) = ⟨(⟨100⟩ : FunctionsMap).speak⟩ ∧
    (native_speak ⟨4, [(3, ⟨[("cow", 7)], ⟨100⟩⟩)]⟩ 3 (CStrPtr.utf8 "cow")
      (CStrPtr.utf8 "moo")).out = FfiOut.ok () ∧
    (native_speak ⟨4, [(3, ⟨[("cow", 7)], ⟨100⟩⟩)]⟩ 3 (CStrPtr.utf8 "cow")
      (CStrPtr.utf8 "moo")).calls =
      [⟨(⟨[("cow", 7)], ⟨100⟩⟩ : Farm).functions_map.speak, 7, CStrPtr.utf8 "moo"⟩] :=
  c8_single_entry_table_always_dispatches_speak ⟨100⟩ ⟨4, [(3, ⟨[("cow", 7)], ⟨100⟩⟩)]⟩
    3 ⟨[("cow", 7)], ⟨100⟩⟩ (CStrPtr.utf8 "cow") (CStrPtr.utf8 "moo") "cow" 7
    (by decide) (by decide) (by decide)

/-- Claim C9 (confirmed at the registry level): `Farm::add_animal n H`
leaves the mapping of every other name `m ≠ n` exactly as it was, and does
not touch the capability table `functions_map`. -/
theorem c9_register_frame (f : Farm) (n : String) (H : Ptr) (m : String)
    (hm : m ≠ n) :
    (f.add_animal n H).lookup m = f.lookup m ∧
    (f.add_animal n H).functions_map = f.functions_map := by
  refine ⟨?_, rfl⟩
  simpa [Farm.lookup, Farm.add_animal] using
    mapGet_mapInsert_ne m n H f.animal_ptrs hm

/-- Witness for C9 at `f = ⟨[("duck", 5)], ⟨100⟩⟩`, `n = "cow"`, `m = "duck"`. -/
theorem c9_register_frame_witness :
    ((⟨[("duck", 5)], ⟨100⟩⟩ : Farm).add_animal "cow" 7).lookup "duck" =
      (⟨[("duck", 5)], ⟨100⟩⟩ : Farm).lookup "duck" ∧
    ((⟨[("duck", 5)], ⟨100⟩⟩ : Farm).add_animal "cow" 7).functions_map =
      (⟨[("duck", 5)], ⟨100⟩⟩ : Farm).functions_map :=
  c9_register_frame ⟨[("duck", 5)], ⟨100⟩⟩ "cow" 7 "duck" (by decide)

/-- Claim C10 (confirmed): `create_farm` returns a live farm whose
`animal_ptrs` map is empty, so before any registration every decodable name
takes the not-found branch in both `get_animal` and `native_speak`, and no
capability entry is called. -/
theorem c10_fresh_farm_is_empty (h : Heap) (fm : FunctionsMap)
    (name msg : CStrPtr) (s : String) (hdec : cstrDecode name = some s) :
    heapGet (create_farm h fm).1 (create_farm h fm).2.store = some ⟨[], fm⟩ ∧
    (get_animal (create_farm h fm).2 (create_farm h fm).1 name).out =
      FfiOut.panicNotFound s ∧
    (native_speak (create_farm h fm).2 (create_farm h fm).1 name msg).out =
      FfiOut.panicNotFound s ∧
    (native_speak (create_farm h fm).2 (create_farm h fm).1 name msg).calls = [] := by
  refine ⟨?_, ?_, ?_, ?_⟩ <;>
    simp [create_farm, get_animal, native_speak, heapGet, Farm.lookup, mapGet, hdec]

/-- Witness for C10 at the empty heap, `fm = ⟨100⟩`, `name = "cow"`. -/
theorem c10_fresh_farm_is_empty_witness :
    heapGet (create_farm ⟨0, []⟩ ⟨100⟩).1 (create_farm ⟨0, []⟩ ⟨100⟩).2.store =
      some ⟨[], ⟨100⟩⟩ ∧
    (get_animal (create_farm ⟨0, []⟩ ⟨100⟩).2 (create_farm ⟨0, []⟩ ⟨100⟩).1
      (CStrPtr.utf8 "cow")).out = FfiOut.panicNotFound "cow" ∧
    (native_speak (create_farm ⟨0, []⟩ ⟨100⟩).2 (create_farm ⟨0, []⟩ ⟨100⟩).1
      (CStrPtr.utf8 "cow") (CStrPtr.utf8 "moo")).out = FfiOut.panicNotFound "cow" ∧
    (native_speak (create_farm ⟨0, []⟩ ⟨100⟩).2 (create_farm ⟨0, []⟩ ⟨100⟩).1
      (CStrPtr.utf8 "cow") (CStrPtr.utf8 "moo")).calls = [] :=
  c10_fresh_farm_is_empty ⟨0, []⟩ ⟨100⟩ (CStrPtr.utf8 "cow") (CStrPtr.utf8 "moo")
    "cow" (by decide)
